import Mathlib

/-!
Verification development for the caption timeline engine of the
"Amina's Sub-T program" repository (a TypeScript subtitle editor).

The definitions below are a shallow embedding of the relevant source
functions.  JS numbers are modelled as exact rationals (`ℚ`): every number
the engine manipulates stays far below the range where IEEE-754 doubles
lose integer or millisecond precision, so exact arithmetic is a faithful
model of the observable behaviour.  JS strings are modelled as Lean
`String`s / `List Char`, `undefined`-able fields as `Option`, and thrown
exceptions as `Except`.
-/

namespace SubT

/-- Caption event record (`src/types.ts`, `interface Subtitle`). -/
structure Subtitle where
  id : String
  startTime : ℚ
  endTime : ℚ
  text : String
  originalText : Option String := none
  speaker : Option String := none
  confidence : Option ℚ := none
deriving DecidableEq

/-- `enum ProcessingStatus` (`src/types.ts`). -/
inductive ProcessingStatus where
  | IDLE | UPLOADING | ANALYZING | TRANSLATING | READY | ERROR
deriving DecidableEq

/-! ### TimecodeCodec: `formatTime` / `parseTime` (`src/utils.ts`) -/

/-- `parseFloat(x.toFixed(3))` for `x ≥ 0`, in exact arithmetic: the nearest
multiple of 1/1000, ties resolved upward (ECMA-262 `toFixed` picks the larger
candidate integer on a tie). -/
def round3 (x : ℚ) : ℚ := (⌊x * 1000 + 1/2⌋ : ℚ) / 1000

/-- `parseFloat(x.toFixed(3))` for arbitrary sign: `toFixed` renders the
magnitude and re-attaches the sign, so ties round away from zero. -/
def jsToFixed3 (x : ℚ) : ℚ := if x < 0 then -round3 (-x) else round3 x

/-- JS `%` as used in `formatTime`: both operands are non-negative there, so
the truncating remainder coincides with the floor-based one. -/
def jsMod (a b : ℚ) : ℚ := a - b * (⌊a / b⌋ : ℚ)

/-- The local `pad` helper of `formatTime`: `('000' + num).slice(-size)`,
i.e. the last `size` characters of `"000"` followed by the decimal rendering
of the (non-negative integer) number. -/
def pad (num : ℕ) (size : ℕ) : String :=
  let s := "000" ++ Nat.repr num
  s.drop (s.length - size)

/-- `formatTime` (`src/utils.ts` lines 4–14).  `Number.isFinite` is always
true of a rational, so only the `seconds < 0` defensive clamp remains of the
guard.  `Math.round(y)` is `⌊y + 1/2⌋` (JS rounds half toward +∞). -/
def formatTime (seconds : ℚ) : String :=
  if seconds < 0 then "00:00:00,000"
  else
    let time := round3 seconds
    let hours := (⌊time / 3600⌋).toNat
    let minutes := (⌊time / 60⌋).toNat % 60
    let secs := (⌊jsMod time 60⌋).toNat
    let ms := (⌊jsMod time 1 * 1000 + 1/2⌋).toNat
    pad hours 2 ++ ":" ++ pad minutes 2 ++ ":" ++ pad secs 2 ++ "," ++ pad ms 3

/-- Value of a decimal-digit character. -/
def digitVal (c : Char) : ℕ := c.toNat - 48

/-- Value of a string of decimal digits, most significant first. -/
def digitsVal (cs : List Char) : ℕ := cs.foldl (fun a c => 10 * a + digitVal c) 0

/-- JS `String.prototype.trim` on the character list. -/
def trimChars (cs : List Char) : List Char :=
  ((cs.dropWhile Char.isWhitespace).reverse.dropWhile Char.isWhitespace).reverse

/-- JS `str.replace(',', '.')`: replaces only the first occurrence. -/
def replaceFirst : List Char → Char → Char → List Char
  | [], _, _ => []
  | c :: cs, a, b => if c = a then b :: cs else c :: replaceFirst cs a b

/-- JS `str.split(':')` on the character list; always returns at least one
(possibly empty) part, so the head/tail accesses below never see the
impossible empty result. -/
def splitOnChar (sep : Char) : List Char → List (List Char)
  | [] => [[]]
  | c :: cs =>
    let r := splitOnChar sep cs
    if c = sep then [] :: r else (c :: r.headD []) :: r.tail

/-- Longest digit prefix, `none` when it is empty (models `NaN`). -/
def parseDigits (cs : List Char) : Option ℕ :=
  let ds := cs.takeWhile Char.isDigit
  if ds.isEmpty then none else some (digitsVal ds)

/-- JS `parseInt(s, 10)`: strip leading whitespace, optional sign, then the
longest digit prefix (any trailing junk is ignored); `none` models `NaN`. -/
def jsParseIntCore (cs : List Char) : Option ℤ :=
  match cs.dropWhile Char.isWhitespace with
  | '-' :: rest => (parseDigits rest).map (fun n => -(n : ℤ))
  | '+' :: rest => (parseDigits rest).map (fun n => (n : ℤ))
  | rest => (parseDigits rest).map (fun n => (n : ℤ))

/-- Symbolic value of a JS decimal literal: sign, integer digits, fractional
digits (with their count), exponent sign and digits. -/
structure NumVal where
  neg : Bool
  intPart : ℕ
  fracPart : ℕ
  fracLen : ℕ
  expNeg : Bool
  expVal : ℕ
deriving DecidableEq

/-- The rational denoted by a parsed decimal literal. -/
def numValToRat (v : NumVal) : ℚ :=
  let base : ℚ := (v.intPart : ℚ) + (v.fracPart : ℚ) / (10 : ℚ) ^ v.fracLen
  let m : ℚ := if v.expNeg then base / 10 ^ v.expVal else base * 10 ^ v.expVal
  if v.neg then -m else m

/-- Exponent suffix of a JS decimal literal: `e`/`E`, optional sign, digits.
An exponent with no digits is not part of the longest valid prefix and is
ignored, as in JS (`parseFloat("12e") = 12`). -/
def parseExponent (cs : List Char) : Bool × ℕ :=
  let expOn : Bool → List Char → Bool × ℕ := fun neg r =>
    let ds := r.takeWhile Char.isDigit
    if ds.isEmpty then (false, 0) else (neg, digitsVal ds)
  match cs with
  | 'e' :: '-' :: r => expOn true r
  | 'e' :: '+' :: r => expOn false r
  | 'e' :: r => expOn false r
  | 'E' :: '-' :: r => expOn true r
  | 'E' :: '+' :: r => expOn false r
  | 'E' :: r => expOn false r
  | _ => (false, 0)

/-- Unsigned part of a JS decimal literal after the optional sign:
`digits [. digits] [exp]`, requiring at least one digit on one side of the
dot; `none` models `NaN`. -/
def parseUnsignedDesc (neg : Bool) (cs : List Char) : Option NumVal :=
  let intDs := cs.takeWhile Char.isDigit
  let rest := cs.dropWhile Char.isDigit
  let fracRest : List Char × List Char :=
    match rest with
    | '.' :: r => (r.takeWhile Char.isDigit, r.dropWhile Char.isDigit)
    | _ => ([], rest)
  if intDs.isEmpty && fracRest.1.isEmpty then none
  else
    let e := parseExponent fracRest.2
    some ⟨neg, digitsVal intDs, digitsVal fracRest.1, fracRest.1.length, e.1, e.2⟩

/-- JS `parseFloat`, as a symbolic literal description: strip leading
whitespace, optional sign, then the longest decimal-literal prefix.
(The `Infinity` literal has no rational value and is not exercised by the
codec.) -/
def jsParseFloatDesc (cs : List Char) : Option NumVal :=
  match cs.dropWhile Char.isWhitespace with
  | '-' :: rest => parseUnsignedDesc true rest
  | '+' :: rest => parseUnsignedDesc false rest
  | rest => parseUnsignedDesc false rest

/-- JS `parseFloat`; `none` models `NaN`. -/
def jsParseFloatCore (cs : List Char) : Option ℚ :=
  (jsParseFloatDesc cs).map numValToRat

/-- The string pipeline of `parseTime`:
`timeString.replace(',', '.').trim().split(':')`. -/
def cleanParts (timeString : String) : List (List Char) :=
  splitOnChar ':' (trimChars (replaceFirst timeString.data ',' '.'))

/-- `parseTime` (`src/utils.ts` lines 17–38).  `none` from the sub-parsers is
JS `NaN`; adding `NaN` poisons the sum, and the final `isNaN` check maps it
to 0.  The empty string is the only falsy string (`if (!timeString)`).  When
the split yields more than three parts no branch runs and `seconds` stays 0. -/
def parseTime (timeString : String) : ℚ :=
  if timeString = "" then 0
  else
    let parts := cleanParts timeString
    let secs? : Option ℚ :=
      if parts.length = 3 then
        match jsParseIntCore (parts.getD 0 []), jsParseIntCore (parts.getD 1 []),
              jsParseFloatCore (parts.getD 2 []) with
        | some h, some m, some s => some ((h : ℚ) * 3600 + (m : ℚ) * 60 + s)
        | _, _, _ => none
      else if parts.length = 2 then
        match jsParseIntCore (parts.getD 0 []), jsParseFloatCore (parts.getD 1 []) with
        | some m, some s => some ((m : ℚ) * 60 + s)
        | _, _ => none
      else if parts.length = 1 then jsParseFloatCore (parts.getD 0 [])
      else some 0
    secs?.getD 0

/-! ### Application state and the history manager (`src/App.tsx`)

The main editor component keeps `subtitles`, `history`, `historyIndex`,
`status` and `statusMessage` in React state; we collect them into one
record.  Persistence (`saveWork`) is a fire-and-forget write to the
excluded storage collaborator and does not touch this state. -/

structure AppState where
  subtitles : List Subtitle
  history : List (List Subtitle)
  historyIndex : Int
  status : ProcessingStatus
  statusMessage : String
deriving DecidableEq

/-- `pushToHistory` (`src/App.tsx` lines 729–746).  The duplicate check
`JSON.stringify(history[historyIndex]) === JSON.stringify(newSubtitles)`
is structural equality of the two snapshots (all snapshots are arrays of
records built with the same key order); an out-of-range JS index yields
`undefined`, whose stringification compares unequal to any array, which the
`get? … = some …` formulation reproduces.  `history.slice(0, historyIndex + 1)`
is `take` of the clamped count, and `shift()` drops the oldest entry. -/
def pushToHistory (st : AppState) (newSubtitles : List Subtitle) : AppState :=
  if 0 ≤ st.historyIndex ∧ st.history.get? st.historyIndex.toNat = some newSubtitles then st
  else
    let newHistory := st.history.take (st.historyIndex + 1).toNat ++ [newSubtitles]
    let newHistory2 := if 50 < newHistory.length then newHistory.tail else newHistory
    { st with history := newHistory2,
              historyIndex := (newHistory2.length : Int) - 1,
              subtitles := newSubtitles }

/-- `handleUndo` (`src/App.tsx` lines 748–755).  `history[newIndex]` is in
range whenever the guard passes (the component maintains
`0 ≤ historyIndex < history.length` whenever the history is non-empty), so
the `getD` default is never read on reachable states. -/
def handleUndo (st : AppState) : AppState :=
  if 0 < st.historyIndex then
    let newIndex := st.historyIndex - 1
    { st with historyIndex := newIndex, subtitles := st.history.getD newIndex.toNat [] }
  else st

/-- The empty-project state: `history = []`, `historyIndex = -1`. -/
def initialState : AppState :=
  { subtitles := [], history := [], historyIndex := -1,
    status := ProcessingStatus.IDLE, statusMessage := "" }

/-! ### Active caption query (`src/App.tsx` lines 866–868) -/

/-- The predicate `currentTime >= s.startTime && currentTime <= s.endTime`. -/
def subtitleContains (s : Subtitle) (t : ℚ) : Bool :=
  decide (s.startTime ≤ t) && decide (t ≤ s.endTime)

/-- `subtitles.find(s => currentTime >= s.startTime && currentTime <= s.endTime)`. -/
def activeSubtitle (subs : List Subtitle) (currentTime : ℚ) : Option Subtitle :=
  subs.find? (fun s => subtitleContains s currentTime)

/-- `activeSubtitleId`: `find(...)?.id || null`; an empty id string is falsy
in JS, so it also collapses to `null`. -/
def activeSubtitleId (subs : List Subtitle) (currentTime : ℚ) : Option String :=
  match activeSubtitle subs currentTime with
  | some s => if s.id = "" then none else some s.id
  | none => none

/-! ### Global offset (`src/App.tsx`): `handleSync` (lines 233–242, first
component) and `handleSyncOffset` (lines 846–854, main editor component) -/

/-- `handleSync`: shift by `offsetMs / 1000`, clamping each time at 0. -/
def handleSync (subs : List Subtitle) (offsetMs : ℚ) : List Subtitle :=
  let offsetSec := offsetMs / 1000
  subs.map (fun sub =>
    { sub with startTime := max 0 (sub.startTime + offsetSec),
               endTime := max 0 (sub.endTime + offsetSec) })

/-- `handleSyncOffset`: like `handleSync` but each shifted time passes
through `parseFloat((…).toFixed(3))` before the clamp. -/
def handleSyncOffset (subs : List Subtitle) (offsetMs : ℚ) : List Subtitle :=
  let offsetSeconds := offsetMs / 1000
  subs.map (fun sub =>
    { sub with startTime := max 0 (jsToFixed3 (sub.startTime + offsetSeconds)),
               endTime := max 0 (jsToFixed3 (sub.endTime + offsetSeconds)) })

/-! ### Translation (`src/services/geminiService.ts` lines 100–147 and
`src/App.tsx` lines 831–844) -/

/-- `new Map(translations.map(t => [t.id, t.translatedText])).get(key)`:
with duplicate ids the last entry wins, hence the lookup on the reversed
list. -/
def mapGet (entries : List (String × String)) (key : String) : Option String :=
  (entries.reverse.find? (fun p => p.1 == key)).map (fun p => p.2)

/-- The result-application step of `translateSubtitlesWithGemini`
(`geminiService.ts` lines 136–142):
`{...sub, originalText: sub.originalText || sub.text,
 text: translationMap.get(sub.id) || sub.text}`.
JS `||` treats both `undefined` and the empty string as falsy. -/
def applyTranslations (subs : List Subtitle) (translations : List (String × String)) :
    List Subtitle :=
  subs.map (fun sub =>
    { sub with
      originalText := some (match sub.originalText with
        | some o => if o = "" then sub.text else o
        | none => sub.text),
      text := match mapGet translations sub.id with
        | some t => if t = "" then sub.text else t
        | none => sub.text })

/-- `translateSubtitlesWithGemini`: the external call's parsed response is
the input; any error in the try block is caught and re-thrown as
`Error("Translation failed. Please try again.")` (lines 144–147). -/
def translateSubtitlesWithGemini (subs : List Subtitle)
    (response : Except String (List (String × String))) : Except String (List Subtitle) :=
  match response with
  | Except.ok translations => Except.ok (applyTranslations subs translations)
  | Except.error _ => Except.error "Translation failed. Please try again."

/-- `handleTranslate` (`src/App.tsx` lines 831–844): early return on an empty
document; otherwise set `TRANSLATING` and the progress message, await the
service, and either commit the result and return to `IDLE`, or set `ERROR`
with `error.message || "Translation failed"` (the empty message is falsy). -/
def handleTranslate (st : AppState) (langName : String)
    (result : Except String (List Subtitle)) : AppState :=
  if st.subtitles.length = 0 then st
  else
    let st1 := { st with status := ProcessingStatus.TRANSLATING,
                         statusMessage := "Translating subtitles to " ++ langName ++ "..." }
    match result with
    | Except.ok translatedSubs =>
      let st2 := pushToHistory st1 translatedSubs
      { st2 with status := ProcessingStatus.IDLE }
    | Except.error msg =>
      { st1 with status := ProcessingStatus.ERROR,
                 statusMessage := if msg = "" then "Translation failed" else msg }

/-! ### SRT export (`src/utils.ts` lines 54–62) -/

/-- `[...subtitles].sort((a, b) => a.startTime - b.startTime)`:
`Array.prototype.sort` is stable (ES2019) and this comparator orders by
`startTime`, so the result is the unique stable `startTime`-sort, here
realised by insertion sort. -/
def sortByStart (subs : List Subtitle) : List Subtitle :=
  List.insertionSort (fun a b => a.startTime ≤ b.startTime) subs

/-- One SRT block: `` `${index + 1}\n${start} --> ${end}\n${text}\n` ``. -/
def srtBlock (idx : ℕ) (sub : Subtitle) : String :=
  Nat.repr idx ++ "\n" ++ formatTime sub.startTime ++ " --> " ++
    formatTime sub.endTime ++ "\n" ++ sub.text ++ "\n"

/-- `generateSRT`: render each sorted subtitle as a block and `join('\n')`. -/
def generateSRT (subtitles : List Subtitle) : String :=
  String.intercalate "\n" ((sortByStart subtitles).mapIdx (fun i sub => srtBlock (i + 1) sub))

/-! ### AudioPreprocessor (`src/utils.ts` lines 80–133)

The `ArrayBuffer`/`DataView` pair is modelled as a list of byte values; each
`set…` call writes the little-endian bytes of its argument. -/

/-- `view.setUint8(off, v)` (values are taken mod 256 as in a byte buffer). -/
def setU8 (l : List ℕ) (off v : ℕ) : List ℕ := l.set off (v % 256)

/-- `view.setUint16(off, v, true)` (little endian). -/
def setU16 (l : List ℕ) (off v : ℕ) : List ℕ := setU8 (setU8 l off v) (off + 1) (v / 256)

/-- `view.setUint32(off, v, true)` (little endian). -/
def setU32 (l : List ℕ) (off v : ℕ) : List ℕ :=
  setU8 (setU8 (setU8 (setU8 l off v) (off + 1) (v / 256)) (off + 2) (v / 65536))
    (off + 3) (v / 16777216)

/-- The `writeString` helper: one `setUint8(offset + i, charCodeAt(i))` per
character. -/
def writeChars (l : List ℕ) (off : ℕ) : List Char → List ℕ
  | [] => l
  | c :: cs => writeChars (setU8 l off c.toNat) (off + 1) cs

/-- Truncation toward zero (JS `ToInt16` integer conversion). -/
def ratTrunc (x : ℚ) : ℤ := if x < 0 then ⌈x⌉ else ⌊x⌋

/-- One sample of the conversion loop: clamp to [-1, 1], scale by 0x8000 for
negatives and 0x7FFF otherwise. -/
def pcm16 (s : ℚ) : ℤ :=
  let c := max (-1) (min 1 s)
  ratTrunc (if c < 0 then c * 32768 else c * 32767)

/-- `view.setInt16(off, v, true)`: two's-complement low 16 bits, little
endian. -/
def setI16 (l : List ℕ) (off : ℕ) (v : ℤ) : List ℕ :=
  let w := (v % 65536).toNat
  setU8 (setU8 l off w) (off + 1) (w / 256)

/-- The sample loop `for (i …) view.setInt16(44 + i * 2, …, true)`, written
with a running offset. -/
def writeSamples (l : List ℕ) (off : ℕ) : List ℚ → List ℕ
  | [] => l
  | s :: rest => writeSamples (setI16 l off (pcm16 s)) (off + 2) rest

/-- `encodeWAV` (`src/utils.ts` lines 106–133): zero-initialised buffer of
`44 + 2·N` bytes, the 44-byte header writes, then the PCM samples. -/
def encodeWAV (samples : List ℚ) (sampleRate : ℕ) : List ℕ :=
  let v0 := List.replicate (44 + samples.length * 2) 0
  let v1 := writeChars v0 0 "RIFF".data
  let v2 := setU32 v1 4 (36 + samples.length * 2)
  let v3 := writeChars v2 8 "WAVE".data
  let v4 := writeChars v3 12 "fmt ".data
  let v5 := setU32 v4 16 16
  let v6 := setU16 v5 20 1
  let v7 := setU16 v6 22 1
  let v8 := setU32 v7 24 sampleRate
  let v9 := setU32 v8 28 (sampleRate * 2)
  let v10 := setU16 v9 32 2
  let v11 := setU16 v10 34 16
  let v12 := writeChars v11 36 "data".data
  let v13 := setU32 v12 40 (samples.length * 2)
  writeSamples v13 44 samples

/-- `processMediaForGemini` (`src/utils.ts` lines 80–103), after the external
decode step: the decoded track is a non-empty list of channels of
floating-point samples; `getChannelData(0)` keeps only the first channel and
`encodeWAV(pcmData, 16000)` serialises it. -/
def processMediaForGemini (channels : List (List ℚ)) : List ℕ :=
  encodeWAV (channels.getD 0 []) 16000

/-- Little-endian 16-bit read-back from the byte buffer. -/
def readU16 (l : List ℕ) (off : ℕ) : ℕ := l.getD off 0 + 256 * l.getD (off + 1) 0

/-- Little-endian 32-bit read-back from the byte buffer. -/
def readU32 (l : List ℕ) (off : ℕ) : ℕ :=
  l.getD off 0 + 256 * l.getD (off + 1) 0 + 65536 * l.getD (off + 2) 0 +
    16777216 * l.getD (off + 3) 0

/-! ### Concrete data used by witnesses and counterexamples -/

/-- A sample caption event. -/
def wSubA : Subtitle := { id := "a", startTime := 0, endTime := 1, text := "first" }

/-- A second sample caption event overlapping `wSubA`. -/
def wSubB : Subtitle := { id := "b", startTime := 0, endTime := 2, text := "second" }

/-- An event whose start time has more than three decimal places. -/
def cexSyncSub : Subtitle := { id := "a", startTime := 0.0004, endTime := 1, text := "x" }

/-- An event starting at 2 seconds. -/
def wSyncSub : Subtitle := { id := "a", startTime := 2, endTime := 4, text := "x" }

/-- An untranslated event. -/
def cexTrSub : Subtitle := { id := "s1", startTime := 0, endTime := 1, text := "hello" }

/-- Snapshot `B` for the history runs. -/
def snapB : List Subtitle := [wSubA]

/-- Snapshot `C` for the history runs. -/
def snapC : List Subtitle := [wSubB]

/-- Events with start times 5, 1, 3 (in that input order). -/
def srtA : Subtitle := { id := "x5", startTime := 5, endTime := 6, text := "five" }

/-- Event with start time 1. -/
def srtB : Subtitle := { id := "x1", startTime := 1, endTime := 2, text := "one" }

/-- Event with start time 3. -/
def srtC : Subtitle := { id := "x3", startTime := 3, endTime := 4, text := "three" }

/-- C5 witness state: one committed snapshot, index at it. -/
def stW : AppState :=
  { subtitles := snapB, history := [snapB], historyIndex := 0,
    status := ProcessingStatus.IDLE, statusMessage := "" }

/-- The `wSyncSub` event shifted by 1000 ms, as produced by `handleSync`. -/
def wSyncShifted : Subtitle :=
  { wSyncSub with
      startTime := max 0 (wSyncSub.startTime + 1000 / 1000),
      endTime := max 0 (wSyncSub.endTime + 1000 / 1000) }

end SubT

namespace SubT

/-! ## Theorems -/

/-! ### C9: accepted timecode forms and the zero fallback -/

/-- C9: `parseTime` accepts `H:M:S` with a comma or period fractional
separator, `M:S` with either separator (also under surrounding whitespace),
and a bare fractional-seconds string, and returns 0 on unparseable input:
`parseTime "01:02:03,456" = 3723.456`, `parseTime "1:02.5" = 62.5`,
`parseTime "  1:02,5  " = 62.5`, `parseTime "3.25" = 3.25`,
`parseTime "garbage" = 0`. -/
theorem parseTime_forms_and_fallback :
    parseTime "01:02:03,456" = 3723.456 ∧
    parseTime "1:02.5" = 62.5 ∧
    parseTime "  1:02,5  " = 62.5 ∧
    parseTime "3.25" = 3.25 ∧
    parseTime "garbage" = 0 := by
  refine ⟨?_, ?_, ?_, ?_, ?_⟩
  · have hF : jsParseFloatCore ['0','3','.','4','5','6'] = some (3456/1000 : ℚ) := by
      rw [jsParseFloatCore,
        show jsParseFloatDesc ['0','3','.','4','5','6'] = some ⟨false, 3, 456, 3, false, 0⟩ from
          by decide]
      norm_num [numValToRat]
    rw [parseTime, if_neg (by decide)]
    simp only [show cleanParts "01:02:03,456" = [['0','1'], ['0','2'], ['0','3','.','4','5','6']]
      from by decide]
    simp only [List.length, List.getD, List.get?]
    norm_num [show jsParseIntCore ['0','1'] = some 1 from by decide,
      show jsParseIntCore ['0','2'] = some 2 from by decide, hF]
  · have hF : jsParseFloatCore ['0', '2', '.', '5'] = some (5/2 : ℚ) := by
      rw [jsParseFloatCore,
        show jsParseFloatDesc ['0', '2', '.', '5'] = some ⟨false, 2, 5, 1, false, 0⟩ from by decide]
      norm_num [numValToRat]
    rw [parseTime, if_neg (by decide)]
    simp only [show cleanParts "1:02.5" = [['1'], ['0', '2', '.', '5']] from by decide]
    simp only [List.length, List.getD, List.get?]
    norm_num [show jsParseIntCore ['1'] = some 1 from by decide, hF]
  · have hF : jsParseFloatCore ['0', '2', '.', '5'] = some (5/2 : ℚ) := by
      rw [jsParseFloatCore,
        show jsParseFloatDesc ['0', '2', '.', '5'] = some ⟨false, 2, 5, 1, false, 0⟩ from by decide]
      norm_num [numValToRat]
    rw [parseTime, if_neg (by decide)]
    simp only [show cleanParts "  1:02,5  " = [['1'], ['0', '2', '.', '5']] from by decide]
    simp only [List.length, List.getD, List.get?]
    norm_num [show jsParseIntCore ['1'] = some 1 from by decide, hF]
  · rw [parseTime, if_neg (by decide)]
    simp only [show cleanParts "3.25" = [['3','.','2','5']] from by decide]
    simp only [List.length, List.getD, List.get?]
    norm_num [show jsParseFloatCore ['3','.','2','5'] = some (13/4 : ℚ) from by
      rw [jsParseFloatCore,
        show jsParseFloatDesc ['3','.','2','5'] = some ⟨false, 3, 25, 2, false, 0⟩ from by decide]
      norm_num [numValToRat]]
  · rw [parseTime, if_neg (by decide)]
    simp only [show cleanParts "garbage" = ["garbage".data] from by decide]
    simp only [List.length, List.getD, List.get?]
    norm_num [show jsParseFloatCore "garbage".data = none from by
      rw [jsParseFloatCore, show jsParseFloatDesc "garbage".data = none from by decide]; rfl]

/-! ### C3: the active-caption query -/

theorem subtitleContains_iff (s : Subtitle) (t : ℚ) :
    subtitleContains s t = true ↔ (s.startTime ≤ t ∧ t ≤ s.endTime) := by
  simp [subtitleContains]

theorem find?_first_index {α : Type} (p : α → Bool) :
    ∀ (l : List α) (i : ℕ) (hi : i < l.length),
      p (l.get ⟨i, hi⟩) = true →
      (∀ j (hj : j < i), p (l.get ⟨j, hj.trans hi⟩) = false) →
      l.find? p = some (l.get ⟨i, hi⟩)
  | a :: l, 0, _, h1, _ => by
      simpa using List.find?_cons_of_pos l (by simpa using h1)
  | a :: l, i+1, hi, h1, h2 => by
      have ha : p a = false := by simpa using h2 0 (Nat.succ_pos i)
      rw [List.find?_cons_of_neg l (by simp [ha])]
      simpa using find?_first_index p l i (Nat.lt_of_succ_lt_succ hi) (by simpa using h1)
        (fun j hj => by simpa using h2 (j+1) (Nat.succ_lt_succ hj))

/-- C3: `activeSubtitle` returns `none` exactly when no event's inclusive
`[startTime, endTime]` range contains the time, and otherwise the first event
(by ordinal position) whose range contains it. -/
theorem activeSubtitle_none_or_first (subs : List Subtitle) (t : ℚ) :
    (activeSubtitle subs t = none ↔
      ∀ s ∈ subs, ¬(s.startTime ≤ t ∧ t ≤ s.endTime)) ∧
    (∀ i (hi : i < subs.length),
      ((subs.get ⟨i, hi⟩).startTime ≤ t ∧ t ≤ (subs.get ⟨i, hi⟩).endTime) →
      (∀ j (hj : j < i), ¬((subs.get ⟨j, hj.trans hi⟩).startTime ≤ t ∧
          t ≤ (subs.get ⟨j, hj.trans hi⟩).endTime)) →
      activeSubtitle subs t = some (subs.get ⟨i, hi⟩)) := by
  constructor
  · rw [activeSubtitle, List.find?_eq_none]
    constructor
    · intro h s hs
      have := h s hs
      simpa [subtitleContains_iff] using this
    · intro h s hs
      simpa [subtitleContains_iff] using h s hs
  · intro i hi h1 h2
    exact find?_first_index _ subs i hi ((subtitleContains_iff _ t).mpr h1)
      (fun j hj => by
        rw [← Bool.not_eq_true, subtitleContains_iff]
        exact h2 j hj)

/-- C3 witness: at time 0 both sample events are active and the first one by
position is returned. -/
theorem activeSubtitle_none_or_first_witness :
    activeSubtitle [wSubA, wSubB] 0 = some wSubA :=
  (activeSubtitle_none_or_first [wSubA, wSubB] 0).2 0 (by decide)
    (by refine ⟨?_, ?_⟩ <;> decide)
    (fun j hj => absurd hj (by omega))

end SubT

namespace SubT

/-! ### C8: a failed translation call leaves the document unchanged -/

/-- C8: when the translation service fails, the resulting state keeps the
subtitle list (hence every event's `text`), the history and the history
index byte-for-byte; the call either leaves the state entirely unchanged
(empty document: the service is never invoked) or surfaces the failure only
through `status = ERROR` and the status message. -/
theorem handleTranslate_failure_leaves_document (st : AppState) (langName e : String) :
    (handleTranslate st langName
        (translateSubtitlesWithGemini st.subtitles (Except.error e))).subtitles = st.subtitles ∧
    (handleTranslate st langName
        (translateSubtitlesWithGemini st.subtitles (Except.error e))).history = st.history ∧
    (handleTranslate st langName
        (translateSubtitlesWithGemini st.subtitles (Except.error e))).historyIndex
      = st.historyIndex ∧
    (handleTranslate st langName
        (translateSubtitlesWithGemini st.subtitles (Except.error e))).subtitles.map
        (fun s => s.text) = st.subtitles.map (fun s => s.text) ∧
    (handleTranslate st langName (translateSubtitlesWithGemini st.subtitles (Except.error e)) = st ∨
      ((handleTranslate st langName
          (translateSubtitlesWithGemini st.subtitles (Except.error e))).status
          = ProcessingStatus.ERROR ∧
        (handleTranslate st langName
          (translateSubtitlesWithGemini st.subtitles (Except.error e))).statusMessage
          = "Translation failed. Please try again.")) := by
  rw [translateSubtitlesWithGemini]
  by_cases h : st.subtitles.length = 0
  · rw [handleTranslate, if_pos h]
    exact ⟨rfl, rfl, rfl, rfl, Or.inl rfl⟩
  · rw [handleTranslate, if_neg h]
    refine ⟨rfl, rfl, rfl, rfl, Or.inr ⟨rfl, ?_⟩⟩
    simp

/-! ### C5: committing an identical snapshot is a no-op -/

theorem get?_concat_last {α : Type} (l : List α) (a : α) :
    (l ++ [a]).get? ((l ++ [a]).length - 1) = some a := by
  simp [List.get?_concat_length l a]

/-- C5: `pushToHistory` with a snapshot structurally identical to the one at
the current index is a no-op, and in particular committing the same snapshot
twice in a row adds only one history entry. -/
theorem pushToHistory_duplicate_noop :
    (∀ (st : AppState) (snap : List Subtitle),
        0 ≤ st.historyIndex → st.history.get? st.historyIndex.toNat = some snap →
        pushToHistory st snap = st) ∧
    (∀ (st : AppState) (snap : List Subtitle),
        pushToHistory (pushToHistory st snap) snap = pushToHistory st snap) := by
  have base : ∀ (st : AppState) (snap : List Subtitle),
      0 ≤ st.historyIndex → st.history.get? st.historyIndex.toNat = some snap →
      pushToHistory st snap = st := by
    intro st snap h1 h2
    rw [pushToHistory, if_pos ⟨h1, h2⟩]
  refine ⟨base, ?_⟩
  intro st snap
  by_cases hdup : 0 ≤ st.historyIndex ∧ st.history.get? st.historyIndex.toNat = some snap
  · have h1 : pushToHistory st snap = st := by rw [pushToHistory, if_pos hdup]
    rw [h1]
    exact h1
  · have hpush : pushToHistory st snap =
        { st with
          history := if 50 < (st.history.take (st.historyIndex + 1).toNat ++ [snap]).length
            then (st.history.take (st.historyIndex + 1).toNat ++ [snap]).tail
            else st.history.take (st.historyIndex + 1).toNat ++ [snap],
          historyIndex := ((if 50 < (st.history.take (st.historyIndex + 1).toNat ++ [snap]).length
            then (st.history.take (st.historyIndex + 1).toNat ++ [snap]).tail
            else st.history.take (st.historyIndex + 1).toNat ++ [snap]).length : Int) - 1,
          subtitles := snap } := by
      rw [pushToHistory, if_neg hdup]
    set nh2 := if 50 < (st.history.take (st.historyIndex + 1).toNat ++ [snap]).length
      then (st.history.take (st.historyIndex + 1).toNat ++ [snap]).tail
      else st.history.take (st.historyIndex + 1).toNat ++ [snap] with hnh2
    have hlast : nh2.get? (nh2.length - 1) = some snap := by
      rw [hnh2]
      by_cases h50 : 50 < (st.history.take (st.historyIndex + 1).toNat ++ [snap]).length
      · rw [if_pos h50]
        obtain ⟨b, bs, hb⟩ : ∃ b bs, st.history.take (st.historyIndex + 1).toNat = b :: bs := by
          cases htk : st.history.take (st.historyIndex + 1).toNat with
          | nil => rw [htk] at h50; simp at h50
          | cons b bs => exact ⟨b, bs, rfl⟩
        rw [hb]
        simp [get?_concat_last bs snap]
      · rw [if_neg h50]
        exact get?_concat_last _ snap
    have hlen : 1 ≤ nh2.length := by
      rcases Nat.eq_zero_or_pos nh2.length with h | h
      · rw [List.length_eq_zero] at h
        rw [h] at hlast
        simp at hlast
      · exact h
    rw [hpush]
    rw [pushToHistory, if_pos ?hcond]
    case hcond =>
      constructor
      · simp only
        omega
      · simp only
        rw [show (((nh2.length : Int) - 1).toNat) = nh2.length - 1 from by omega]
        exact hlast

/-- C5 witness: re-committing the snapshot at the current index changes
nothing. -/
theorem pushToHistory_duplicate_noop_witness : pushToHistory stW snapB = stW :=
  pushToHistory_duplicate_noop.1 stW snapB (by decide) (by decide)

end SubT

namespace SubT

/-! ### C1: commit, commit, undo, commit -/

/-- C1 counterexample: `commit A; commit B; undo; commit C` on the empty
history does NOT leave `[A, B, C]` — committing after the undo truncates the
redo branch, discarding `B` (here `A = []`, `B = snapB`, `C = snapC`). -/
theorem history_run_cex :
    (pushToHistory (handleUndo (pushToHistory (pushToHistory initialState []) snapB)) snapC).history
      ≠ [([] : List Subtitle), snapB, snapC] := by decide

/-- C1 (amended): after `commit A; commit B; undo; commit C` on an initially
empty history (with `B`, `C` differing structurally from `A` so that no
commit is deduplicated), the history is exactly `[A, C]` — `B` is discarded —
with the current index 1 pointing at `C`, which is also the visible
document. -/
theorem history_commit_undo_commit (A B C : List Subtitle) (hBA : B ≠ A) (hCA : C ≠ A) :
    (pushToHistory (handleUndo (pushToHistory (pushToHistory initialState A) B)) C).history
        = [A, C] ∧
    (pushToHistory (handleUndo (pushToHistory (pushToHistory initialState A) B)) C).historyIndex
        = 1 ∧
    (pushToHistory (handleUndo (pushToHistory (pushToHistory initialState A) B)) C).subtitles
        = C := by
  have h1 : pushToHistory initialState A =
      { subtitles := A, history := [A], historyIndex := 0,
        status := ProcessingStatus.IDLE, statusMessage := "" } := by
    rw [pushToHistory, if_neg (by simp [initialState])]
    simp [initialState]
  have h2 : pushToHistory ({ subtitles := A, history := [A], historyIndex := 0,
                             status := ProcessingStatus.IDLE, statusMessage := "" } : AppState) B =
      { subtitles := B, history := [A, B], historyIndex := 1,
        status := ProcessingStatus.IDLE, statusMessage := "" } := by
    rw [pushToHistory, if_neg (by
      simp only [AppState.mk.injEq]
      intro ⟨_, hmem⟩
      simp at hmem
      exact hBA hmem.symm)]
    simp
  have h3 : handleUndo ({ subtitles := B, history := [A, B], historyIndex := 1,
                          status := ProcessingStatus.IDLE, statusMessage := "" } : AppState) =
      { subtitles := A, history := [A, B], historyIndex := 0,
        status := ProcessingStatus.IDLE, statusMessage := "" } := by
    rw [handleUndo, if_pos (by norm_num)]
    simp
  have h4 : pushToHistory ({ subtitles := A, history := [A, B], historyIndex := 0,
                             status := ProcessingStatus.IDLE, statusMessage := "" } : AppState) C =
      { subtitles := C, history := [A, C], historyIndex := 1,
        status := ProcessingStatus.IDLE, statusMessage := "" } := by
    rw [pushToHistory, if_neg (by
      intro ⟨_, hmem⟩
      simp at hmem
      exact hCA hmem.symm)]
    simp
  rw [h1, h2, h3, h4]
  exact ⟨rfl, rfl, rfl⟩

/-- C1 witness: the amended run at `A = []`, `B = snapB`, `C = snapC`. -/
theorem history_commit_undo_commit_witness :
    (pushToHistory (handleUndo (pushToHistory (pushToHistory initialState []) snapB)) snapC).history
        = [[], snapC] ∧
    (pushToHistory (handleUndo (pushToHistory (pushToHistory initialState []) snapB)) snapC).historyIndex
        = 1 ∧
    (pushToHistory (handleUndo (pushToHistory (pushToHistory initialState []) snapB)) snapC).subtitles
        = snapC :=
  history_commit_undo_commit [] snapB snapC (by decide) (by decide)

/-! ### C6: the global offset -/

/-- C6 counterexample: in the main editor component the shifted times pass
through `toFixed(3)`, so an event starting at 0.0004 s with a zero offset
does not keep `max(0, startTime + delta) = 0.0004` — the code yields 0. -/
theorem globalOffset_cex :
    (handleSyncOffset [cexSyncSub] 0).map (fun s => s.startTime) ≠
      [max 0 (cexSyncSub.startTime + 0 / 1000)] := by
  norm_num [handleSyncOffset, cexSyncSub, jsToFixed3, round3, max_def]

/-- C6 (amended): both global-offset handlers shift every event's start and
end by `offsetMs / 1000` seconds and clamp at 0 (so no resulting time is
negative); `handleSync` applies exactly `max 0 (t + delta)`, while the main
editor's `handleSyncOffset` first rounds the shifted value to 3 decimal
places.  Offsetting an event starting at 2 s by −100000 s yields start 0 in
both. -/
theorem globalOffset_spec (subs : List Subtitle) (offsetMs : ℚ) :
    (∀ s ∈ handleSync subs offsetMs, 0 ≤ s.startTime ∧ 0 ≤ s.endTime) ∧
    (∀ s ∈ handleSyncOffset subs offsetMs, 0 ≤ s.startTime ∧ 0 ≤ s.endTime) ∧
    (handleSync subs offsetMs = subs.map (fun sub =>
      { sub with startTime := max 0 (sub.startTime + offsetMs / 1000),
                 endTime := max 0 (sub.endTime + offsetMs / 1000) })) ∧
    (handleSyncOffset subs offsetMs = subs.map (fun sub =>
      { sub with startTime := max 0 (jsToFixed3 (sub.startTime + offsetMs / 1000)),
                 endTime := max 0 (jsToFixed3 (sub.endTime + offsetMs / 1000)) })) ∧
    (handleSync [wSyncSub] (-100000 * 1000)).map (fun s => s.startTime) = [0] ∧
    (handleSyncOffset [wSyncSub] (-100000 * 1000)).map (fun s => s.startTime) = [0] := by
  refine ⟨?_, ?_, rfl, rfl, ?_, ?_⟩
  · intro s hs
    rcases List.mem_map.mp hs with ⟨a, _, rfl⟩
    exact ⟨le_max_left _ _, le_max_left _ _⟩
  · intro s hs
    rcases List.mem_map.mp hs with ⟨a, _, rfl⟩
    exact ⟨le_max_left _ _, le_max_left _ _⟩
  · norm_num [handleSync, wSyncSub, max_def]
  · norm_num [handleSyncOffset, wSyncSub, jsToFixed3, round3, max_def]

/-- C6 witness: the clamping conclusion at a concrete offset event. -/
theorem globalOffset_spec_witness :
    0 ≤ wSyncShifted.startTime ∧ 0 ≤ wSyncShifted.endTime :=
  (globalOffset_spec [wSyncSub] 1000).1 wSyncShifted (by simp [handleSync, wSyncShifted])

/-! ### C10: the frame of applying a translation response -/

/-- C10 counterexample: the claim says the `text` field is replaced by the
response entry matching the event's id; for the matching entry `""` the code
keeps the previous text instead (JS `||` treats `""` as falsy). -/
theorem applyTranslations_cex :
    (applyTranslations [cexTrSub] [("s1", "")]).map (fun s => s.text) ≠ [""] := by decide

/-- C10 (amended): applying a translation response preserves the list length
and order and, per event, the `id`, `startTime`, `endTime`, `speaker` and
`confidence` fields; `text` becomes the response entry matching the event's
id when that entry is non-empty and stays unchanged when no entry matches or
the matching entry is the empty string; `originalText` is set to the
pre-translation text when it was previously unset or empty, and kept
otherwise. -/
theorem applyTranslations_frame (subs : List Subtitle) (trs : List (String × String)) :
    (applyTranslations subs trs).length = subs.length ∧
    ∀ i sub, subs.get? i = some sub →
      ∃ sub', (applyTranslations subs trs).get? i = some sub' ∧
        sub'.id = sub.id ∧ sub'.startTime = sub.startTime ∧ sub'.endTime = sub.endTime ∧
        sub'.speaker = sub.speaker ∧ sub'.confidence = sub.confidence ∧
        (∀ t, mapGet trs sub.id = some t → t ≠ "" → sub'.text = t) ∧
        ((mapGet trs sub.id = none ∨ mapGet trs sub.id = some "") → sub'.text = sub.text) ∧
        ((sub.originalText = none ∨ sub.originalText = some "") →
          sub'.originalText = some sub.text) ∧
        (∀ o, sub.originalText = some o → o ≠ "" → sub'.originalText = some o) := by
  constructor
  · simp [applyTranslations]
  · intro i sub h
    refine ⟨{ sub with
        originalText := some (match sub.originalText with
          | some o => if o = "" then sub.text else o
          | none => sub.text),
        text := match mapGet trs sub.id with
          | some t => if t = "" then sub.text else t
          | none => sub.text }, ?_, rfl, rfl, rfl, rfl, rfl, ?_, ?_, ?_, ?_⟩
    · rw [applyTranslations, List.get?_map, h]
      rfl
    · intro t ht hne
      simp only [ht]
      simp [hne]
    · rintro (hm | hm) <;> simp [hm]
    · rintro (ho | ho) <;> simp [ho]
    · intro o ho hne
      simp only [ho]
      simp [hne]

/-- C10 witness: a concrete event with a non-empty matching response entry. -/
theorem applyTranslations_frame_witness :
    ∃ sub', (applyTranslations [cexTrSub] [("s1", "bonjour")]).get? 0 = some sub' ∧
      sub'.id = cexTrSub.id ∧ sub'.startTime = cexTrSub.startTime ∧
      sub'.endTime = cexTrSub.endTime ∧ sub'.speaker = cexTrSub.speaker ∧
      sub'.confidence = cexTrSub.confidence ∧
      (∀ t, mapGet [("s1", "bonjour")] cexTrSub.id = some t → t ≠ "" → sub'.text = t) ∧
      ((mapGet [("s1", "bonjour")] cexTrSub.id = none ∨
        mapGet [("s1", "bonjour")] cexTrSub.id = some "") → sub'.text = cexTrSub.text) ∧
      ((cexTrSub.originalText = none ∨ cexTrSub.originalText = some "") →
        sub'.originalText = some cexTrSub.text) ∧
      (∀ o, cexTrSub.originalText = some o → o ≠ "" → sub'.originalText = some o) :=
  (applyTranslations_frame [cexTrSub] [("s1", "bonjour")]).2 0 cexTrSub (by decide)

end SubT

namespace SubT

/-! ### C4: SRT export -/

instance : IsTotal Subtitle (fun a b => a.startTime ≤ b.startTime) :=
  ⟨fun a b => le_total a.startTime b.startTime⟩

instance : IsTrans Subtitle (fun a b => a.startTime ≤ b.startTime) :=
  ⟨fun _ _ _ hab hbc => le_trans hab hbc⟩

theorem filter_orderedInsert (q : ℚ) (a : Subtitle) (l : List Subtitle) :
    (l.orderedInsert (fun x y => x.startTime ≤ y.startTime) a).filter
        (fun s => decide (s.startTime = q)) =
      if a.startTime = q
      then a :: l.filter (fun s => decide (s.startTime = q))
      else l.filter (fun s => decide (s.startTime = q)) := by
  rw [List.orderedInsert_eq_take_drop, List.filter_append]
  have hsplit : l.filter (fun s => decide (s.startTime = q)) =
      (l.takeWhile fun b => decide ¬(a.startTime ≤ b.startTime)).filter
        (fun s => decide (s.startTime = q)) ++
      (l.dropWhile fun b => decide ¬(a.startTime ≤ b.startTime)).filter
        (fun s => decide (s.startTime = q)) := by
    rw [← List.filter_append, List.takeWhile_append_dropWhile]
  by_cases hq : a.startTime = q
  · have hpre : (l.takeWhile fun b => decide ¬(a.startTime ≤ b.startTime)).filter
        (fun s => decide (s.startTime = q)) = [] := by
      rw [List.filter_eq_nil]
      intro b hb
      have hblt : b.startTime < a.startTime := by
        have := List.mem_takeWhile_imp hb
        simp only [decide_eq_true_eq] at this
        exact lt_of_not_le this
      simp only [decide_eq_true_eq]
      rw [← hq]
      exact ne_of_lt hblt
    rw [if_pos hq, hpre, List.nil_append, List.filter_cons, if_pos (by simpa using hq), hsplit,
      hpre, List.nil_append]
  · rw [if_neg hq, List.filter_cons, if_neg (by simpa using hq), hsplit]

theorem filter_sortByStart (q : ℚ) : ∀ l : List Subtitle,
    (sortByStart l).filter (fun s => decide (s.startTime = q)) =
      l.filter (fun s => decide (s.startTime = q))
  | [] => rfl
  | a :: l => by
      rw [sortByStart, List.insertionSort,
        show List.insertionSort (fun x y : Subtitle => x.startTime ≤ y.startTime) l
          = sortByStart l from rfl,
        filter_orderedInsert q a (sortByStart l), filter_sortByStart q l, List.filter_cons]
      by_cases hq : a.startTime = q
      · rw [if_pos hq, if_pos (by simpa using hq)]
      · rw [if_neg hq, if_neg (by simpa using hq)]

theorem formatTime_one : formatTime 1 = "00:00:01,000" := by
  rw [formatTime, if_neg (by norm_num)]
  norm_num [round3, jsMod]
  decide

theorem formatTime_two : formatTime 2 = "00:00:02,000" := by
  rw [formatTime, if_neg (by norm_num)]
  norm_num [round3, jsMod]
  decide

theorem formatTime_three : formatTime 3 = "00:00:03,000" := by
  rw [formatTime, if_neg (by norm_num)]
  norm_num [round3, jsMod]
  decide

theorem formatTime_four : formatTime 4 = "00:00:04,000" := by
  rw [formatTime, if_neg (by norm_num)]
  norm_num [round3, jsMod]
  decide

theorem formatTime_five : formatTime 5 = "00:00:05,000" := by
  rw [formatTime, if_neg (by norm_num)]
  norm_num [round3, jsMod]
  decide

theorem formatTime_six : formatTime 6 = "00:00:06,000" := by
  rw [formatTime, if_neg (by norm_num)]
  norm_num [round3, jsMod]
  decide

/-- C4: the export sorts events ascending by `startTime` with a stable sort
(a permutation of the input that keeps the relative order of equal start
times), renders each sorted event as the block `index\nstart --> end\ntext\n`
joined with a blank line between blocks, with a fresh 1-based sequential
index; events with start times `[5, 1, 3]` come out indexed 1, 2, 3 in start
order 1, 3, 5. -/
theorem generateSRT_sorted_stable (subs : List Subtitle) :
    List.Sorted (fun a b : Subtitle => a.startTime ≤ b.startTime) (sortByStart subs) ∧
    (sortByStart subs).Perm subs ∧
    (∀ q : ℚ, (sortByStart subs).filter (fun s => decide (s.startTime = q)) =
      subs.filter (fun s => decide (s.startTime = q))) ∧
    generateSRT subs = String.intercalate "\n"
      ((sortByStart subs).mapIdx (fun i sub => srtBlock (i + 1) sub)) ∧
    generateSRT [srtA, srtB, srtC] =
      "1\n00:00:01,000 --> 00:00:02,000\none\n\n2\n00:00:03,000 --> 00:00:04,000\nthree\n\n3\n00:00:05,000 --> 00:00:06,000\nfive\n" := by
  refine ⟨List.sorted_insertionSort _ subs, List.perm_insertionSort _ subs,
    fun q => filter_sortByStart q subs, rfl, ?_⟩
  have hs : sortByStart [srtA, srtB, srtC] = [srtB, srtC, srtA] := by decide
  rw [generateSRT, hs]
  simp only [List.mapIdx_cons, List.mapIdx_nil]
  rw [srtBlock, srtBlock, srtBlock]
  simp only [srtA, srtB, srtC]
  rw [formatTime_one, formatTime_two, formatTime_three, formatTime_four, formatTime_five,
    formatTime_six]
  rfl

end SubT

namespace SubT

/-! ### C7: the encoded audio container -/

theorem length_setU8 (l : List ℕ) (off v : ℕ) : (setU8 l off v).length = l.length :=
  List.length_set l off (v % 256)

theorem length_setU16 (l : List ℕ) (off v : ℕ) : (setU16 l off v).length = l.length := by
  rw [setU16, length_setU8, length_setU8]

theorem length_setU32 (l : List ℕ) (off v : ℕ) : (setU32 l off v).length = l.length := by
  rw [setU32, length_setU8, length_setU8, length_setU8, length_setU8]

theorem length_setI16 (l : List ℕ) (off : ℕ) (v : ℤ) : (setI16 l off v).length = l.length := by
  rw [setI16, length_setU8, length_setU8]

theorem length_writeChars : ∀ (cs : List Char) (l : List ℕ) (off : ℕ),
    (writeChars l off cs).length = l.length
  | [], _, _ => rfl
  | c :: cs, l, off => by rw [writeChars, length_writeChars cs, length_setU8]

theorem length_writeSamples : ∀ (samples : List ℚ) (l : List ℕ) (off : ℕ),
    (writeSamples l off samples).length = l.length
  | [], _, _ => rfl
  | s :: samples, l, off => by rw [writeSamples, length_writeSamples samples, length_setI16]

theorem getD_setU8_ne (l : List ℕ) (off v j : ℕ) (h : j ≠ off) :
    (setU8 l off v).getD j 0 = l.getD j 0 := by
  rw [setU8, List.getD_eq_get?, List.getD_eq_get?, List.get?_set_ne _ _ (Ne.symm h)]

theorem getD_setU8_self (l : List ℕ) (off v : ℕ) (h : off < l.length) :
    (setU8 l off v).getD off 0 = v % 256 := by
  rw [setU8, List.getD_eq_get?, List.get?_set_eq_of_lt _ h]
  rfl

theorem getD_setU16_lt (l : List ℕ) (off v j : ℕ) (h : j < off) :
    (setU16 l off v).getD j 0 = l.getD j 0 := by
  rw [setU16, getD_setU8_ne _ _ _ _ (by omega), getD_setU8_ne _ _ _ _ (by omega)]

theorem getD_setU32_lt (l : List ℕ) (off v j : ℕ) (h : j < off) :
    (setU32 l off v).getD j 0 = l.getD j 0 := by
  rw [setU32, getD_setU8_ne _ _ _ _ (by omega), getD_setU8_ne _ _ _ _ (by omega),
    getD_setU8_ne _ _ _ _ (by omega), getD_setU8_ne _ _ _ _ (by omega)]

theorem getD_writeChars_lt : ∀ (cs : List Char) (l : List ℕ) (off j : ℕ), j < off →
    (writeChars l off cs).getD j 0 = l.getD j 0
  | [], _, _, _, _ => rfl
  | c :: cs, l, off, j, h => by
    rw [writeChars, getD_writeChars_lt cs _ _ _ (by omega), getD_setU8_ne _ _ _ _ (by omega)]

theorem getD_writeSamples_lt : ∀ (samples : List ℚ) (l : List ℕ) (off j : ℕ), j < off →
    (writeSamples l off samples).getD j 0 = l.getD j 0
  | [], _, _, _, _ => rfl
  | s :: samples, l, off, j, h => by
    rw [writeSamples, getD_writeSamples_lt samples _ _ _ (by omega), setI16]
    rw [getD_setU8_ne _ _ _ _ (by omega), getD_setU8_ne _ _ _ _ (by omega)]

theorem getD_setU16_byte0 (l : List ℕ) (off v : ℕ) (h : off < l.length) :
    (setU16 l off v).getD off 0 = v % 256 := by
  rw [setU16, getD_setU8_ne _ _ _ _ (by omega), getD_setU8_self _ _ _ h]

theorem getD_setU16_byte1 (l : List ℕ) (off v : ℕ) (h : off + 1 < l.length) :
    (setU16 l off v).getD (off + 1) 0 = v / 256 % 256 := by
  rw [setU16, getD_setU8_self _ _ _ (by rw [length_setU8]; omega)]

theorem getD_setU32_byte0 (l : List ℕ) (off v : ℕ) (h : off < l.length) :
    (setU32 l off v).getD off 0 = v % 256 := by
  rw [setU32, getD_setU8_ne _ _ _ _ (by omega), getD_setU8_ne _ _ _ _ (by omega),
    getD_setU8_ne _ _ _ _ (by omega), getD_setU8_self _ _ _ h]

theorem getD_setU32_byte1 (l : List ℕ) (off v : ℕ) (h : off + 1 < l.length) :
    (setU32 l off v).getD (off + 1) 0 = v / 256 % 256 := by
  rw [setU32, getD_setU8_ne _ _ _ _ (by omega), getD_setU8_ne _ _ _ _ (by omega),
    getD_setU8_self _ _ _ (by rw [length_setU8]; omega)]

theorem getD_setU32_byte2 (l : List ℕ) (off v : ℕ) (h : off + 2 < l.length) :
    (setU32 l off v).getD (off + 2) 0 = v / 65536 % 256 := by
  rw [setU32, getD_setU8_ne _ _ _ _ (by omega),
    getD_setU8_self _ _ _ (by rw [length_setU8, length_setU8]; omega)]

theorem getD_setU32_byte3 (l : List ℕ) (off v : ℕ) (h : off + 3 < l.length) :
    (setU32 l off v).getD (off + 3) 0 = v / 16777216 % 256 := by
  rw [setU32, getD_setU8_self _ _ _ (by rw [length_setU8, length_setU8, length_setU8]; omega)]

/-- Reading any byte below offset 28 of the encoded container only sees the
writes up to `setUint32(24, sampleRate)`; the later header writes and the
sample loop target offsets ≥ 28. -/
theorem encodeWAV_getD_lt28 (samples : List ℚ) (sr j : ℕ) (hj : j < 28) :
    (encodeWAV samples sr).getD j 0 =
      (setU32 (setU16 (setU16 (setU32 (writeChars (writeChars (setU32 (writeChars
        (List.replicate (44 + samples.length * 2) 0) 0 "RIFF".data) 4 (36 + samples.length * 2))
        8 "WAVE".data) 12 "fmt ".data) 16 16) 20 1) 22 1) 24 sr).getD j 0 := by
  rw [encodeWAV]
  rw [getD_writeSamples_lt _ _ _ _ (by omega), getD_setU32_lt _ _ _ _ (by omega),
    getD_writeChars_lt _ _ _ _ (by omega), getD_setU16_lt _ _ _ _ (by omega),
    getD_setU16_lt _ _ _ _ (by omega), getD_setU32_lt _ _ _ _ (by omega)]

/-- C7: for `N` input samples the preprocessor's container is exactly
`44 + 2N` bytes, and its header declares channel count 1 (bytes 22–23) and
sample rate 16000 (bytes 24–27), regardless of the source channel count. -/
theorem processMediaForGemini_header (channels : List (List ℚ)) :
    (processMediaForGemini channels).length = 44 + 2 * (channels.getD 0 []).length ∧
    readU16 (processMediaForGemini channels) 22 = 1 ∧
    readU32 (processMediaForGemini channels) 24 = 16000 := by
  refine ⟨?_, ?_, ?_⟩
  · rw [processMediaForGemini, encodeWAV]
    simp only [length_writeSamples, length_setU32, length_setU16, length_writeChars,
      List.length_replicate]
    omega
  · rw [readU16, processMediaForGemini,
      encodeWAV_getD_lt28 _ _ 22 (by omega), encodeWAV_getD_lt28 _ _ 23 (by omega)]
    rw [getD_setU32_lt _ _ _ _ (by omega)]
    rw [show (23 : ℕ) = 22 + 1 from rfl, getD_setU32_lt _ _ _ _ (by omega)]
    rw [getD_setU16_byte0 _ _ _ (by
        simp only [length_setU16, length_setU32, length_writeChars, List.length_replicate]
        omega),
      getD_setU16_byte1 _ _ _ (by
        simp only [length_setU16, length_setU32, length_writeChars, List.length_replicate]
        omega)]
  · rw [readU32, processMediaForGemini,
      encodeWAV_getD_lt28 _ _ 24 (by omega), encodeWAV_getD_lt28 _ _ 25 (by omega),
      encodeWAV_getD_lt28 _ _ 26 (by omega), encodeWAV_getD_lt28 _ _ 27 (by omega)]
    rw [show (25 : ℕ) = 24 + 1 from rfl, show (26 : ℕ) = 24 + 2 from rfl,
      show (27 : ℕ) = 24 + 3 from rfl]
    rw [getD_setU32_byte0 _ _ _ (by
        simp only [length_setU16, length_setU32, length_writeChars, List.length_replicate]
        omega),
      getD_setU32_byte1 _ _ _ (by
        simp only [length_setU16, length_setU32, length_writeChars, List.length_replicate]
        omega),
      getD_setU32_byte2 _ _ _ (by
        simp only [length_setU16, length_setU32, length_writeChars, List.length_replicate]
        omega),
      getD_setU32_byte3 _ _ _ (by
        simp only [length_setU16, length_setU32, length_writeChars, List.length_replicate]
        omega)]

end SubT

namespace SubT

/-! ### C2: the round-trip law, supporting lemmas -/

theorem floorq_natCast_div (a b : ℕ) (hb : 0 < b) :
    ⌊(a : ℚ) / (b : ℚ)⌋ = ((a / b : ℕ) : ℤ) := by
  have hbq : (0 : ℚ) < (b : ℚ) := by exact_mod_cast hb
  rw [Int.floor_eq_iff]
  constructor
  · rw [le_div_iff hbq]
    have h : (a / b) * b ≤ a := Nat.div_mul_le_self a b
    exact_mod_cast h
  · rw [div_lt_iff hbq]
    have h : a < (a / b + 1) * b := by
      calc a = b * (a / b) + a % b := (Nat.div_add_mod a b).symm
        _ < b * (a / b) + b := by have := Nat.mod_lt a hb; omega
        _ = (a / b + 1) * b := by ring
    push_cast
    exact_mod_cast h

theorem floor_natCast_add_half (k : ℕ) : ⌊(k : ℚ) + 1/2⌋ = (k : ℤ) := by
  rw [show ((k : ℚ) + 1/2) = ((k : ℤ) : ℚ) + 1/2 from by push_cast; ring,
    Int.floor_int_add]
  norm_num

set_option maxRecDepth 10000 in
theorem pad2_parseInt : ∀ h : ℕ, h < 100 → jsParseIntCore (pad h 2).data = some (h : ℤ) := by
  decide

set_option maxRecDepth 10000 in
theorem pad2_digits : ∀ h : ℕ, h < 100 → (pad h 2).data.all Char.isDigit = true := by
  decide

set_option maxRecDepth 100000 in
theorem pad3_digits : ∀ m : ℕ, m < 1000 → (pad m 3).data.all Char.isDigit = true := by
  decide

set_option maxRecDepth 100000 in
theorem pad3_val : ∀ m : ℕ, m < 1000 → digitsVal (pad m 3).data = m := by
  decide

set_option maxRecDepth 100000 in
theorem pad3_len : ∀ m : ℕ, m < 1000 → (pad m 3).data.length = 3 := by
  decide

set_option maxRecDepth 10000 in
theorem pad2_val : ∀ h : ℕ, h < 100 → digitsVal (pad h 2).data = h := by
  decide

set_option maxRecDepth 10000 in
theorem pad2_ne_nil : ∀ h : ℕ, h < 100 → (pad h 2).data ≠ [] := by
  decide

theorem digit_not_sep (c : Char) (h : c.isDigit = true) :
    c ≠ ':' ∧ c ≠ ',' ∧ c ≠ '.' ∧ c ≠ '-' ∧ c ≠ '+' ∧ c.isWhitespace = false := by
  refine ⟨?_, ?_, ?_, ?_, ?_, ?_⟩
  · intro hc; rw [hc] at h; exact absurd h (by decide)
  · intro hc; rw [hc] at h; exact absurd h (by decide)
  · intro hc; rw [hc] at h; exact absurd h (by decide)
  · intro hc; rw [hc] at h; exact absurd h (by decide)
  · intro hc; rw [hc] at h; exact absurd h (by decide)
  · cases hw : c.isWhitespace with
    | false => rfl
    | true =>
      exfalso
      have h2 : ((c = ' ' ∨ c = '\t') ∨ c = '\r') ∨ c = '\n' := by
        simpa [Char.isWhitespace, Bool.or_eq_true, decide_eq_true_eq] using hw
      rcases h2 with ((h2 | h2) | h2) | h2 <;> subst h2 <;> exact absurd h (by decide)

theorem takeWhile_eq_self_of_all (p : Char → Bool) :
    ∀ l : List Char, (∀ c ∈ l, p c = true) → l.takeWhile p = l
  | [], _ => rfl
  | c :: l, h => by
    rw [List.takeWhile_cons, if_pos (h c (List.mem_cons_self c l)),
      takeWhile_eq_self_of_all p l (fun d hd => h d (List.mem_cons_of_mem c hd))]

theorem dropWhile_eq_nil_of_all (p : Char → Bool) :
    ∀ l : List Char, (∀ c ∈ l, p c = true) → l.dropWhile p = []
  | [], _ => rfl
  | c :: l, h => by
    rw [List.dropWhile_cons_of_pos (h c (List.mem_cons_self c l)),
      dropWhile_eq_nil_of_all p l (fun d hd => h d (List.mem_cons_of_mem c hd))]

theorem takeWhile_append_not (p : Char → Bool) :
    ∀ (a : List Char) (l : List Char), (∀ c ∈ a, p c = true) →
      (∀ c, l.head? = some c → p c = false) → (a ++ l).takeWhile p = a
  | [], l, _, hl => by
    cases l with
    | nil => rfl
    | cons c cs => simp [List.takeWhile_cons, hl c rfl]
  | c :: a, l, ha, hl => by
    rw [List.cons_append, List.takeWhile_cons, if_pos (ha c (List.mem_cons_self c a)),
      takeWhile_append_not p a l (fun d hd => ha d (List.mem_cons_of_mem c hd)) hl]

theorem dropWhile_append_not (p : Char → Bool) :
    ∀ (a : List Char) (l : List Char), (∀ c ∈ a, p c = true) →
      (∀ c, l.head? = some c → p c = false) → (a ++ l).dropWhile p = l
  | [], l, _, hl => by
    cases l with
    | nil => rfl
    | cons c cs => simp [List.dropWhile_cons, hl c rfl]
  | c :: a, l, ha, hl => by
    rw [List.cons_append, List.dropWhile_cons_of_pos (ha c (List.mem_cons_self c a)),
      dropWhile_append_not p a l (fun d hd => ha d (List.mem_cons_of_mem c hd)) hl]

theorem replaceFirst_append (a b : List Char) (c d : Char) (h : c ∉ a) :
    replaceFirst (a ++ c :: b) c d = a ++ d :: b := by
  induction a with
  | nil => simp [replaceFirst]
  | cons x a ih =>
    have hxc : ¬ x = c := by
      intro hx
      exact h (by rw [← hx]; exact List.mem_cons_self x a)
    have hca : c ∉ a := fun hm => h (List.mem_cons_of_mem x hm)
    rw [List.cons_append, replaceFirst, if_neg hxc, ih hca, List.cons_append]

theorem splitOnChar_of_not_mem (sep : Char) :
    ∀ l : List Char, sep ∉ l → splitOnChar sep l = [l]
  | [], _ => rfl
  | c :: l, h => by
    have hcs : ¬ c = sep := by
      intro hc
      exact h (by rw [← hc]; exact List.mem_cons_self c l)
    rw [splitOnChar]
    simp only [splitOnChar_of_not_mem sep l (fun hm => h (List.mem_cons_of_mem c hm))]
    rw [if_neg hcs]
    rfl

theorem splitOnChar_append (sep : Char) :
    ∀ (a : List Char) (b : List Char), sep ∉ a →
      splitOnChar sep (a ++ sep :: b) = a :: splitOnChar sep b
  | [], b, _ => by
    rw [List.nil_append, splitOnChar]
    simp
  | x :: a, b, h => by
    have hxs : ¬ x = sep := by
      intro hx
      exact h (by rw [← hx]; exact List.mem_cons_self x a)
    rw [List.cons_append, splitOnChar]
    simp only [splitOnChar_append sep a b (fun hm => h (List.mem_cons_of_mem x hm))]
    rw [if_neg hxs]
    rfl

theorem trimChars_of_no_ws (l : List Char) (h : ∀ c ∈ l, c.isWhitespace = false) :
    trimChars l = l := by
  rw [trimChars]
  have h1 : l.dropWhile Char.isWhitespace = l := by
    cases l with
    | nil => rfl
    | cons c cs => exact List.dropWhile_cons_of_neg (by simp [h c (List.mem_cons_self c cs)])
  rw [h1]
  have h2 : l.reverse.dropWhile Char.isWhitespace = l.reverse := by
    cases hr : l.reverse with
    | nil => rfl
    | cons c cs =>
      refine List.dropWhile_cons_of_neg ?_
      have : c ∈ l := by
        rw [← List.mem_reverse, hr]
        exact List.mem_cons_self c cs
      simp [h c this]
  rw [h2, List.reverse_reverse]

end SubT

namespace SubT

/-- `formatTime` on a non-negative input renders the four zero-padded
components of `n = round(1000·x)`: hours `n / 3600000` (truncated to two
digits by `pad`), minutes `n / 60000 % 60`, seconds `n / 1000 % 60` and
milliseconds `n % 1000`. -/
theorem formatTime_decomp (x : ℚ) (n : ℕ) (hx : 0 ≤ x) (hn : ⌊x * 1000 + 1/2⌋ = (n : ℤ)) :
    formatTime x = pad (n / 3600000) 2 ++ ":" ++ pad (n / 60000 % 60) 2 ++ ":" ++
      pad (n / 1000 % 60) 2 ++ "," ++ pad (n % 1000) 3 := by
  have htime : round3 x = (n : ℚ) / 1000 := by
    rw [round3, hn]
    norm_num
  have hdiv1 : ⌊(n : ℚ) / 1000 / 3600⌋ = ((n / 3600000 : ℕ) : ℤ) := by
    rw [div_div, show (1000 : ℚ) * 3600 = ((3600000 : ℕ) : ℚ) from by norm_num]
    exact floorq_natCast_div n 3600000 (by norm_num)
  have hdiv2 : ⌊(n : ℚ) / 1000 / 60⌋ = ((n / 60000 : ℕ) : ℤ) := by
    rw [div_div, show (1000 : ℚ) * 60 = ((60000 : ℕ) : ℚ) from by norm_num]
    exact floorq_natCast_div n 60000 (by norm_num)
  have hdiv3 : ⌊(n : ℚ) / 1000⌋ = ((n / 1000 : ℕ) : ℤ) := by
    rw [show (1000 : ℚ) = ((1000 : ℕ) : ℚ) from by norm_num]
    exact floorq_natCast_div n 1000 (by norm_num)
  have hid60 : (n : ℚ) = 60000 * ((n / 60000 : ℕ) : ℚ) + ((n % 60000 : ℕ) : ℚ) := by
    exact_mod_cast (Nat.div_add_mod n 60000).symm
  have hid1000 : (n : ℚ) = 1000 * ((n / 1000 : ℕ) : ℚ) + ((n % 1000 : ℕ) : ℚ) := by
    exact_mod_cast (Nat.div_add_mod n 1000).symm
  have hmod60 : jsMod ((n : ℚ) / 1000) 60 = ((n % 60000 : ℕ) : ℚ) / 1000 := by
    rw [jsMod, hdiv2, Int.cast_natCast, eq_div_iff (by norm_num : (1000 : ℚ) ≠ 0)]
    ring_nf
    linarith [hid60]
  have hmod1 : jsMod ((n : ℚ) / 1000) 1 = ((n % 1000 : ℕ) : ℚ) / 1000 := by
    rw [jsMod, div_one, hdiv3, Int.cast_natCast, eq_div_iff (by norm_num : (1000 : ℚ) ≠ 0)]
    ring_nf
    linarith [hid1000]
  have hsec : ⌊((n % 60000 : ℕ) : ℚ) / 1000⌋ = ((n / 1000 % 60 : ℕ) : ℤ) := by
    rw [show (1000 : ℚ) = ((1000 : ℕ) : ℚ) from by norm_num,
      floorq_natCast_div (n % 60000) 1000 (by norm_num)]
    norm_cast
    rw [show (60000 : ℕ) = 1000 * 60 from by norm_num]
    exact Nat.mod_mul_right_div_self n 1000 60
  have hms : ⌊((n % 1000 : ℕ) : ℚ) / 1000 * 1000 + 1/2⌋ = ((n % 1000 : ℕ) : ℤ) := by
    rw [div_mul_cancel₀ _ (by norm_num : (1000 : ℚ) ≠ 0)]
    exact floor_natCast_add_half (n % 1000)
  rw [formatTime, if_neg (not_lt.mpr hx)]
  simp only [htime, jsMod]
  rw [← jsMod, ← jsMod, hmod60, hmod1, hdiv1, hdiv2, hsec, hms]
  simp only [Int.toNat_natCast]

end SubT

namespace SubT

/-- `parseUnsignedDesc` on `digits.digits` (no sign, no exponent): the
literal is valid and denotes the two digit groups. -/
theorem parseUnsignedDesc_digits (A B : List Char) (hA : ∀ c ∈ A, c.isDigit = true)
    (hB : ∀ c ∈ B, c.isDigit = true) (hAne : A ≠ []) :
    parseUnsignedDesc false (A ++ '.' :: B) =
      some ⟨false, digitsVal A, digitsVal B, B.length, false, 0⟩ := by
  have htake : (A ++ '.' :: B).takeWhile Char.isDigit = A :=
    takeWhile_append_not _ A ('.' :: B) hA
      (fun c hc => by
        rw [show ('.' :: B).head? = some '.' from rfl] at hc
        injection hc with hc
        rw [← hc]
        decide)
  have hdrop : (A ++ '.' :: B).dropWhile Char.isDigit = '.' :: B :=
    dropWhile_append_not _ A ('.' :: B) hA
      (fun c hc => by
        rw [show ('.' :: B).head? = some '.' from rfl] at hc
        injection hc with hc
        rw [← hc]
        decide)
  rw [parseUnsignedDesc]
  simp only [htake, hdrop, takeWhile_eq_self_of_all _ B hB, dropWhile_eq_nil_of_all _ B hB]
  rw [if_neg (by simp [hAne])]
  rfl

/-- `jsParseFloatDesc` on `digits.digits`. -/
theorem jsParseFloatDesc_digits (A B : List Char) (hA : ∀ c ∈ A, c.isDigit = true)
    (hB : ∀ c ∈ B, c.isDigit = true) (hAne : A ≠ []) :
    jsParseFloatDesc (A ++ '.' :: B) =
      some ⟨false, digitsVal A, digitsVal B, B.length, false, 0⟩ := by
  obtain ⟨a0, A', rfl⟩ := List.exists_cons_of_ne_nil hAne
  have ha0 : a0.isDigit = true := hA a0 (List.mem_cons_self a0 A')
  obtain ⟨hq1, hq2, hq3, hq4, hq5, hq6⟩ := digit_not_sep a0 ha0
  rw [jsParseFloatDesc]
  rw [show ((a0 :: A') ++ '.' :: B).dropWhile Char.isWhitespace = (a0 :: A') ++ '.' :: B from by
    rw [List.cons_append]
    exact List.dropWhile_cons_of_neg (by simp [hq6])]
  split
  · next rest heq =>
      exfalso
      rw [List.cons_append] at heq
      injection heq with h1 _
      exact hq4 h1
  · next rest heq =>
      exfalso
      rw [List.cons_append] at heq
      injection heq with h1 _
      exact hq5 h1
  · exact parseUnsignedDesc_digits (a0 :: A') B hA hB hAne

end SubT

namespace SubT

/-- `parseTime` on any rendered timecode `P1:P2:P3,P4` whose four components
are digit strings: the comma is replaced, nothing is trimmed, the split
yields the three fields, and the two integer fields and the fractional
seconds field are summed. -/
theorem parseTime_of_shape (P1 P2 P3 P4 : List Char) (a b c d : ℕ)
    (h1 : jsParseIntCore P1 = some ((a : ℕ) : ℤ)) (h2 : jsParseIntCore P2 = some ((b : ℕ) : ℤ))
    (hd1 : ∀ ch ∈ P1, ch.isDigit = true) (hd2 : ∀ ch ∈ P2, ch.isDigit = true)
    (hd3 : ∀ ch ∈ P3, ch.isDigit = true) (hd4 : ∀ ch ∈ P4, ch.isDigit = true)
    (hv3 : digitsVal P3 = c) (hv4 : digitsVal P4 = d) (hl4 : P4.length = 3)
    (h3ne : P3 ≠ []) (s : String)
    (hdata : s.data = P1 ++ ':' :: (P2 ++ ':' :: (P3 ++ ',' :: P4))) :
    parseTime s = (a : ℚ) * 3600 + (b : ℚ) * 60 + ((c : ℚ) + (d : ℚ) / 1000) := by
  have hne : s ≠ "" := by
    intro he
    rw [he] at hdata
    simp at hdata
  have hrepl : replaceFirst s.data ',' '.' =
      P1 ++ ':' :: (P2 ++ ':' :: (P3 ++ '.' :: P4)) := by
    rw [hdata]
    have ha : ',' ∉ P1 ++ ':' :: (P2 ++ ':' :: P3) := by
      intro hmem
      rcases List.mem_append.mp hmem with hc | hc
      · exact absurd (hd1 _ hc) (by decide)
      · rcases List.mem_cons.mp hc with heq | hc
        · exact absurd heq (by decide)
        · rcases List.mem_append.mp hc with hc | hc
          · exact absurd (hd2 _ hc) (by decide)
          · rcases List.mem_cons.mp hc with heq | hc
            · exact absurd heq (by decide)
            · exact absurd (hd3 _ hc) (by decide)
    have hshape : P1 ++ ':' :: (P2 ++ ':' :: (P3 ++ ',' :: P4)) =
        (P1 ++ ':' :: (P2 ++ ':' :: P3)) ++ ',' :: P4 := by
      simp [List.append_assoc]
    have hshape2 : (P1 ++ ':' :: (P2 ++ ':' :: P3)) ++ '.' :: P4 =
        P1 ++ ':' :: (P2 ++ ':' :: (P3 ++ '.' :: P4)) := by
      simp [List.append_assoc]
    rw [hshape, replaceFirst_append _ _ _ _ ha, hshape2]
  have htrim : trimChars (P1 ++ ':' :: (P2 ++ ':' :: (P3 ++ '.' :: P4))) =
      P1 ++ ':' :: (P2 ++ ':' :: (P3 ++ '.' :: P4)) := by
    apply trimChars_of_no_ws
    intro ch hc
    rcases List.mem_append.mp hc with h' | h'
    · exact (digit_not_sep ch (hd1 ch h')).2.2.2.2.2
    · rcases List.mem_cons.mp h' with rfl | h'
      · decide
      · rcases List.mem_append.mp h' with h' | h'
        · exact (digit_not_sep ch (hd2 ch h')).2.2.2.2.2
        · rcases List.mem_cons.mp h' with rfl | h'
          · decide
          · rcases List.mem_append.mp h' with h' | h'
            · exact (digit_not_sep ch (hd3 ch h')).2.2.2.2.2
            · rcases List.mem_cons.mp h' with rfl | h'
              · decide
              · exact (digit_not_sep ch (hd4 ch h')).2.2.2.2.2
  have hsplit : splitOnChar ':' (P1 ++ ':' :: (P2 ++ ':' :: (P3 ++ '.' :: P4))) =
      [P1, P2, P3 ++ '.' :: P4] := by
    rw [splitOnChar_append ':' P1 _ (fun hc => absurd (hd1 _ hc) (by decide)),
      splitOnChar_append ':' P2 _ (fun hc => absurd (hd2 _ hc) (by decide)),
      splitOnChar_of_not_mem ':' _ ?hc3]
    case hc3 =>
      intro hmem
      rcases List.mem_append.mp hmem with h' | h'
      · exact absurd (hd3 _ h') (by decide)
      · rcases List.mem_cons.mp h' with heq | h'
        · exact absurd heq (by decide)
        · exact absurd (hd4 _ h') (by decide)
  have hclean : cleanParts s = [P1, P2, P3 ++ '.' :: P4] := by
    rw [cleanParts, hrepl, htrim, hsplit]
  have hf3 : jsParseFloatCore (P3 ++ '.' :: P4) = some ((c : ℚ) + (d : ℚ) / 1000) := by
    rw [jsParseFloatCore, jsParseFloatDesc_digits P3 P4 hd3 hd4 h3ne]
    simp only [Option.map_some']
    congr 1
    rw [numValToRat]
    simp only [hv3, hv4, hl4]
    norm_num
  rw [parseTime, if_neg hne]
  simp only [hclean, List.length_cons, List.length_nil, List.getD]
  norm_num [h1, h2, hf3]

end SubT

namespace SubT

/-- C2 (amended): for every non-negative `x` whose 3-decimal rounding stays
below 100 hours (`round3 x < 360000` seconds, the range where the two-digit
hour field of the rendered timecode is not truncated),
`parseTime (formatTime x)` equals `x` rounded to 3 decimal places. -/
theorem parseTime_formatTime_round3 (x : ℚ) (hx : 0 ≤ x) (hlt : round3 x < 360000) :
    parseTime (formatTime x) = round3 x := by
  have hfl0 : 0 ≤ ⌊x * 1000 + 1/2⌋ := by
    apply Int.floor_nonneg.mpr
    have h0 : 0 ≤ x * 1000 := mul_nonneg hx (by norm_num)
    linarith
  obtain ⟨n, hn⟩ : ∃ n : ℕ, ⌊x * 1000 + 1/2⌋ = (n : ℤ) :=
    ⟨_, (Int.toNat_of_nonneg hfl0).symm⟩
  have hr3 : round3 x = (n : ℚ) / 1000 := by
    rw [round3, hn]
    norm_num
  have hnlt : n < 360000000 := by
    rw [hr3] at hlt
    have h2 : (n : ℚ) < 360000000 := by
      rw [div_lt_iff (by norm_num : (0 : ℚ) < 1000)] at hlt
      linarith
    exact_mod_cast h2
  have hh : n / 3600000 < 100 := by omega
  have hm : n / 60000 % 60 < 100 := by omega
  have hs : n / 1000 % 60 < 100 := by omega
  have hmv : n % 1000 < 1000 := by omega
  have hd1 : ∀ c ∈ (pad (n / 3600000) 2).data, c.isDigit = true := by
    simpa [List.all_eq_true] using pad2_digits (n / 3600000) hh
  have hd2 : ∀ c ∈ (pad (n / 60000 % 60) 2).data, c.isDigit = true := by
    simpa [List.all_eq_true] using pad2_digits (n / 60000 % 60) hm
  have hd3 : ∀ c ∈ (pad (n / 1000 % 60) 2).data, c.isDigit = true := by
    simpa [List.all_eq_true] using pad2_digits (n / 1000 % 60) hs
  have hd4 : ∀ c ∈ (pad (n % 1000) 3).data, c.isDigit = true := by
    simpa [List.all_eq_true] using pad3_digits (n % 1000) hmv
  have hfmt := formatTime_decomp x n hx hn
  have hdata : (formatTime x).data = (pad (n / 3600000) 2).data ++
      ':' :: ((pad (n / 60000 % 60) 2).data ++
        ':' :: ((pad (n / 1000 % 60) 2).data ++ ',' :: (pad (n % 1000) 3).data)) := by
    rw [hfmt]
    simp only [String.data_append]
    simp [List.append_assoc]
  have hmain := parseTime_of_shape (pad (n / 3600000) 2).data (pad (n / 60000 % 60) 2).data
      (pad (n / 1000 % 60) 2).data (pad (n % 1000) 3).data
      (n / 3600000) (n / 60000 % 60) (n / 1000 % 60) (n % 1000)
      (pad2_parseInt _ hh) (pad2_parseInt _ hm)
      hd1 hd2 hd3 hd4 (pad2_val _ hs) (pad3_val _ hmv) (pad3_len _ hmv)
      (pad2_ne_nil _ hs) (formatTime x) hdata
  rw [hmain, hr3]
  have hid : 3600000 * (n / 3600000) + 60000 * (n / 60000 % 60) +
      1000 * (n / 1000 % 60) + n % 1000 = n := by omega
  have hidq : 3600000 * ((n / 3600000 : ℕ) : ℚ) + 60000 * ((n / 60000 % 60 : ℕ) : ℚ) +
      1000 * ((n / 1000 % 60 : ℕ) : ℚ) + ((n % 1000 : ℕ) : ℚ) = (n : ℚ) := by
    exact_mod_cast congrArg (fun k : ℕ => (k : ℚ)) hid
  rw [eq_div_iff (by norm_num : (1000 : ℚ) ≠ 0)]
  ring_nf
  linarith [hidq]

/-- C2 counterexample: at `x = 360000` (100 hours) the two-digit hour field
truncates, the rendered string is the zero timecode, and the round trip
returns 0 instead of `round3 360000 = 360000`. -/
theorem parseTime_formatTime_cex : parseTime (formatTime 360000) ≠ round3 360000 := by
  have h1 : formatTime 360000 = "00:00:00,000" := by
    rw [formatTime, if_neg (by norm_num)]
    norm_num [round3, jsMod]
    decide
  have h2 : parseTime "00:00:00,000" = 0 := by
    have hF : jsParseFloatCore ['0','0','.','0','0','0'] = some (0 : ℚ) := by
      rw [jsParseFloatCore,
        show jsParseFloatDesc ['0','0','.','0','0','0'] = some ⟨false, 0, 0, 3, false, 0⟩ from
          by decide]
      norm_num [numValToRat]
    rw [parseTime, if_neg (by decide)]
    simp only [show cleanParts "00:00:00,000" = [['0','0'], ['0','0'], ['0','0','.','0','0','0']]
      from by decide]
    simp only [List.length, List.getD, List.get?]
    norm_num [show jsParseIntCore ['0','0'] = some 0 from by decide, hF]
  rw [h1, h2, round3]
  norm_num

/-- C2 witness: the round trip at `x = 7/2`. -/
theorem parseTime_formatTime_round3_witness :
    0 ≤ (7/2 : ℚ) ∧ round3 (7/2) < 360000 ∧ parseTime (formatTime (7/2)) = round3 (7/2) :=
  ⟨by norm_num, by norm_num [round3], parseTime_formatTime_round3 (7/2) (by norm_num)
    (by norm_num [round3])⟩

end SubT
